import Mathlib

/-!
Verification of the single-threaded lazy-initialised container `Lazy<T>`
(src/lib.rs) against its specification.

The Rust struct is
  `struct Lazy<T> { t: UnsafeCell<MaybeUninit<T>>, init: Cell<bool> }`.
We embed the cell state shallowly: the `MaybeUninit<T>` slot becomes an
`Option T` (with `none` standing for uninitialised memory) and the
`Cell<bool>` flag becomes a `Bool`.  The type is `!Sync`/`!Send`, so all
execution is single-threaded and interior mutability is just state passing.

A caller-supplied initializer closure may capture arbitrary environment and
may itself act on the cell through the shared reference it closes over (this
is how reentrant initialisation arises in the Rust code), and it may exit
abnormally (panic).  We therefore model an initializer as a function from a
"world" state `σ` (its captured environment) and the current cell state to
either a normal return (new world, new cell state, produced value) or an
abnormal exit (new world, new cell state).
-/

/-- Embedding of the Rust struct `Lazy<T>`: `t` is the
`UnsafeCell<MaybeUninit<T>>` storage slot, with `none` for uninitialised
memory, and `init` is the `Cell<bool>` initialisation flag. -/
structure Lazy (T : Type) where
  t : Option T
  init : Bool
deriving DecidableEq

/-- Result of running a caller-supplied initializer closure: it either
returns a value of `T` normally or exits abnormally (panics).  In both cases
it hands back its (possibly updated) captured world `σ` and the (possibly
updated, via the shared reference it may close over) cell state. -/
inductive Ret (σ T : Type) where
  | ok : σ → Lazy T → T → Ret σ T
  | panic : σ → Lazy T → Ret σ T
deriving DecidableEq

/-- Outcome of `Lazy::get_or_create`:
`ok w l r` is a normal return with final world `w`, final cell state `l` and
returned reference `r` (the slot read performed by `assume_init_ref`, an
`Option` because reading an uninitialised slot has no defined value);
`reentrantPanic` is the `panic!("recursive modification of Lazy<T>")` raised
by the re-check of the flag after the initializer returned;
`initPanic` is an abnormal exit of the initializer itself, propagated. -/
inductive GocResult (σ T : Type) where
  | ok : σ → Lazy T → Option T → GocResult σ T
  | reentrantPanic : σ → Lazy T → GocResult σ T
  | initPanic : σ → Lazy T → GocResult σ T
deriving DecidableEq

namespace Lazy

variable {T : Type} {σ : Type}

/-- Rust `Lazy::new`: `t: UnsafeCell::new(MaybeUninit::uninit()), init: Cell::new(false)`. -/
def new : Lazy T := ⟨none, false⟩

/-- Rust `Lazy::into_inner(self)`: if `self.init.get()` then
`Some(self.minit().assume_init_read())` — reading the slot as an initialised
`T`, which in the `Option` embedding is the slot content itself — else `None`. -/
def into_inner (l : Lazy T) : Option T :=
  if l.init then l.t else none

/-- Rust `Lazy::get(&self)`: if `self.init.get()` then
`Some(self.minit().assume_init_ref())` else `None`.  As for `into_inner`,
the guarded `assume_init_ref` read is the slot content. -/
def get (l : Lazy T) : Option T :=
  if l.init then l.t else none

/-- Rust `Lazy::get(&self)` with its effect on the cell state made explicit:
the method only reads `self.init` (a `Cell::get`) and, when initialised,
reads the slot; neither branch writes, so the outgoing state is the incoming
one.  Returns (cell state after the call, returned value). -/
def get_st (l : Lazy T) : Lazy T × Option T :=
  if l.init then (l, l.t) else (l, none)

/-- Rust `Lazy::get_or_create(&self, f)`, line by line:
if `!self.init.get()` then run `let t = f()` (which may update the world and,
through the shared reference it may capture, the cell, and may panic —
propagated as `initPanic`); re-check `self.init.get()` and
`panic!("recursive modification of Lazy<T>")` if the initializer initialised
the cell (`reentrantPanic`); otherwise `self.minit().write(t)` and
`self.init.set(true)`.  Finally (both paths) return
`self.minit().assume_init_ref()`, the slot read of the current state. -/
def get_or_create (w : σ) (l : Lazy T) (f : σ → Lazy T → Ret σ T) : GocResult σ T :=
  if l.init then
    GocResult.ok w l l.t
  else
    match f w l with
    | Ret.panic w' l' => GocResult.initPanic w' l'
    | Ret.ok w' l' t =>
      if l'.init then
        GocResult.reentrantPanic w' l'
      else
        GocResult.ok w' ⟨some t, true⟩ (some t)

/-- Rust `Clone for Lazy<T>` where `T: Clone` (clone of `T` passed as `dup`):
`match self.get() { Some(t) => Self { t: new(MaybeUninit::new(t.clone())),
init: Cell::new(true) }, None => Self::new() }`. -/
def clone (dup : T → T) (l : Lazy T) : Lazy T :=
  match l.get with
  | some t => ⟨some (dup t), true⟩
  | none => new

/-- Instrumentation wrapper: runs the initializer `f` and counts its
invocations in an extra `Nat` component of the world.  Used to state that an
initializer is invoked exactly once (or not at all). -/
def counted (f : σ → Lazy T → Ret σ T) : σ × Nat → Lazy T → Ret (σ × Nat) T :=
  fun wn l =>
    match f wn.1 l with
    | Ret.ok w' l' t => Ret.ok (w', wn.2 + 1) l' t
    | Ret.panic w' l' => Ret.panic (w', wn.2 + 1) l'

/-- Modelled drop glue of `Lazy<T>`: how many times the contained value's
destructor runs when a cell in state `l` goes out of scope.  The source
declares no `Drop` impl for `Lazy<T>`; the automatic drop glue drops the two
fields, and neither runs a `T` destructor: `Cell<bool>` contains no `T`, and
`MaybeUninit<T>` is defined by Rust to never drop its contents.  Hence the
count is `0` in every state, including initialised ones (the value is
leaked). -/
def dropGlueDestructorRuns (_l : Lazy T) : Nat := 0

end Lazy

/-- C9: for every type `T`, a freshly created cell (`Lazy::new`) is empty: its
flag is unset, `get` (peek) returns `none` and `into_inner` (consume) returns
`none`. -/
theorem claim_C9_empty_by_default (T : Type) :
    (Lazy.new : Lazy T).init = false ∧
      Lazy.get (Lazy.new : Lazy T) = none ∧
      Lazy.into_inner (Lazy.new : Lazy T) = none :=
  ⟨rfl, rfl, rfl⟩

/-- C6: `into_inner` (consume) returns the stored value on an initialised
cell and `none` on an empty cell; being a total function of the consumed cell
it never fails. -/
theorem claim_C6_consume {T : Type} (l : Lazy T) :
    (∀ v : T, l.init = true → l.t = some v → Lazy.into_inner l = some v) ∧
      (l.init = false → Lazy.into_inner l = none) :=
  ⟨fun v hinit ht => by simp [Lazy.into_inner, hinit, ht],
   fun hinit => by simp [Lazy.into_inner, hinit]⟩

theorem claim_C6_witness :
    Lazy.into_inner (⟨some 3, true⟩ : Lazy Nat) = some 3 ∧
      Lazy.into_inner (⟨none, false⟩ : Lazy Nat) = none :=
  ⟨(claim_C6_consume (⟨some 3, true⟩ : Lazy Nat)).1 3 rfl rfl,
   (claim_C6_consume (⟨none, false⟩ : Lazy Nat)).2 rfl⟩

/-- C8: `get` (peek) is side-effect free: the state-explicit `get_st` leaves
the cell unchanged (flag and slot), returns exactly the value of the pure
`get`, and is therefore freely repeatable — any number of calls observe the
same cell state.  No initializer is involved (`get` takes none). -/
theorem claim_C8_get_pure {T : Type} (l : Lazy T) :
    (Lazy.get_st l).1 = l ∧
      (Lazy.get_st l).2 = Lazy.get l ∧
      Lazy.get_st (Lazy.get_st l).1 = Lazy.get_st l := by
  unfold Lazy.get_st Lazy.get
  rcases l with ⟨t, init⟩
  cases init <;> simp

/-- C5: duplication (`Clone::clone`, with `T`'s own clone passed as `dup`)
never invokes any initializer (it takes none as input, and its result is a
function of `dup` and the current state alone); on a cell holding `v` it
yields a new cell pre-initialised with `T`'s own duplicate `dup v` of the
value, and on an empty cell it yields an empty cell (`Lazy.new`). -/
theorem claim_C5_duplicate {T : Type} (dup : T → T) (l : Lazy T) :
    Lazy.get (Lazy.clone dup l) = Option.map dup (Lazy.get l) ∧
      (Lazy.get l = none → Lazy.clone dup l = Lazy.new) ∧
      (∀ v : T, Lazy.get l = some v → Lazy.clone dup l = ⟨some (dup v), true⟩) := by
  refine ⟨?_, ?_, ?_⟩
  · unfold Lazy.clone
    cases h : Lazy.get l <;> simp [h, Lazy.get, Lazy.new]
  · intro h
    unfold Lazy.clone
    simp [h]
  · intro v h
    unfold Lazy.clone
    simp [h]

/-- Helper: the fast path of `get_or_create`.  When the flag is already set,
the body is skipped entirely (the initializer argument is irrelevant) and the
final slot read is returned with cell state and world unchanged. -/
theorem Lazy.goc_fast {T σ : Type} {l : Lazy T} (h : l.init = true) (w : σ)
    (f : σ → Lazy T → Ret σ T) :
    Lazy.get_or_create w l f = GocResult.ok w l l.t := by
  simp [Lazy.get_or_create, h]

/-- Helper: inversion of a normal return of `get_or_create`.  Whatever path
was taken, the final cell has its flag set and the returned reference is the
final slot content. -/
theorem Lazy.goc_ok_inv {T σ : Type} {l l' : Lazy T} {w w' : σ} {r : Option T}
    {f : σ → Lazy T → Ret σ T}
    (h : Lazy.get_or_create w l f = GocResult.ok w' l' r) :
    l'.init = true ∧ l'.t = r := by
  unfold Lazy.get_or_create at h
  by_cases hi : l.init
  · simp only [hi, if_true] at h
    obtain ⟨rfl, rfl, rfl⟩ := GocResult.ok.inj h
    exact ⟨hi, rfl⟩
  · simp only [hi] at h
    cases hf : f w l with
    | panic w1 l1 => rw [hf] at h; exact absurd h (by simp)
    | ok w1 l1 t =>
      rw [hf] at h
      by_cases h1 : l1.init
      · simp only [h1, if_true] at h
        exact absurd h (by simp)
      · simp only [h1] at h
        obtain ⟨rfl, rfl, rfl⟩ := GocResult.ok.inj h
        exact ⟨rfl, rfl⟩

/-- C7: stability after initialisation.  If a `get_or_create` call returned
normally with reference `r`, the final cell has its flag set, `get` (peek)
yields exactly `r`, and every subsequent `get_or_create` — with any
initializer whatsoever — leaves the cell state untouched and returns the same
`r`; the cell never transitions back to empty and the stored value never
changes. -/
theorem claim_C7_stability {T σ : Type} (l : Lazy T) (w : σ)
    (f : σ → Lazy T → Ret σ T) (w' : σ) (l' : Lazy T) (r : Option T)
    (h : Lazy.get_or_create w l f = GocResult.ok w' l' r) :
    l'.init = true ∧ Lazy.get l' = r ∧
      ∀ (g : σ → Lazy T → Ret σ T) (w₂ : σ),
        Lazy.get_or_create w₂ l' g = GocResult.ok w₂ l' r := by
  obtain ⟨hinit, ht⟩ := Lazy.goc_ok_inv h
  refine ⟨hinit, by simp [Lazy.get, hinit, ht], fun g w₂ => ?_⟩
  rw [Lazy.goc_fast hinit w₂ g, ht]

theorem claim_C7_witness :
    Lazy.get_or_create () (⟨some 7, true⟩ : Lazy Nat)
        (fun (w : Unit) (l : Lazy Nat) => Ret.ok w l 99)
      = GocResult.ok () ⟨some 7, true⟩ (some 7) :=
  (claim_C7_stability (⟨none, false⟩ : Lazy Nat) () (fun w l => Ret.ok w l 7)
      () ⟨some 7, true⟩ (some 7) (by decide)).2.2
    (fun w l => Ret.ok w l 99) ()

/-- C1: memoization.  First conjunct: on a cell whose flag is set,
`get_or_create` returns the already-stored value immediately, with cell and
world unchanged, for every initializer (so no initializer is invoked: the
outcome is independent of `f`, and `f`'s effects on the world do not occur).
Second conjunct: starting from an empty cell and instrumenting the
initializers with an invocation counter starting at 0, if the first call
returns normally then the counter is exactly 1, and a second call with any
(counted) initializer `g` returns the identical reference `r`, leaves the
cell unchanged and leaves the counter at 1 — so the first initializer ran
exactly once and `g` never ran. -/
theorem claim_C1_memoization {T σ : Type} (l : Lazy T) (w : σ) :
    (l.init = true → ∀ f : σ → Lazy T → Ret σ T,
        Lazy.get_or_create w l f = GocResult.ok w l l.t) ∧
      (l.init = false → ∀ (f g : σ → Lazy T → Ret σ T) (w' : σ) (n : Nat)
          (l' : Lazy T) (r : Option T),
        Lazy.get_or_create (w, 0) l (Lazy.counted f) = GocResult.ok (w', n) l' r →
        n = 1 ∧
          Lazy.get_or_create (w', n) l' (Lazy.counted g) = GocResult.ok (w', n) l' r) := by
  constructor
  · intro h f
    exact Lazy.goc_fast h w f
  · intro h f g w' n l' r hgoc
    have hn : n = 1 := by
      unfold Lazy.get_or_create Lazy.counted at hgoc
      simp only [h] at hgoc
      cases hf : f w l with
      | panic w1 l1 => rw [hf] at hgoc; exact absurd hgoc (by simp)
      | ok w1 l1 t =>
        rw [hf] at hgoc
        by_cases h1 : l1.init
        · simp only [h1, if_true] at hgoc
          exact absurd hgoc (by simp)
        · simp only [h1] at hgoc
          obtain ⟨hw, rfl, rfl⟩ := GocResult.ok.inj hgoc
          exact (Prod.mk.inj hw).2.symm
    obtain ⟨hinit, ht⟩ := Lazy.goc_ok_inv hgoc
    refine ⟨hn, ?_⟩
    rw [Lazy.goc_fast hinit (w', n) (Lazy.counted g), ht]

theorem claim_C1_witness :
    (1 : Nat) = 1 ∧
      Lazy.get_or_create ((), 1) (⟨some 3, true⟩ : Lazy Nat)
          (Lazy.counted (fun (w : Unit) (l : Lazy Nat) => Ret.ok w l 5))
        = GocResult.ok ((), 1) ⟨some 3, true⟩ (some 3) :=
  (claim_C1_memoization (⟨none, false⟩ : Lazy Nat) ()).2 rfl
    (fun w l => Ret.ok w l 3) (fun w l => Ret.ok w l 5)
    () 1 ⟨some 3, true⟩ (some 3) (by decide)

theorem claim_C5_witness :
    Lazy.clone (fun n : Nat => n + 1) (⟨some 4, true⟩ : Lazy Nat) = ⟨some 5, true⟩ ∧
      Lazy.clone (fun n : Nat => n + 1) (Lazy.new : Lazy Nat) = Lazy.new :=
  ⟨(claim_C5_duplicate (fun n : Nat => n + 1) (⟨some 4, true⟩ : Lazy Nat)).2.2 4 rfl,
   (claim_C5_duplicate (fun n : Nat => n + 1) (Lazy.new : Lazy Nat)).2.1 rfl⟩

/-- C2: reentrancy detection.  First conjunct: on a cell that starts empty,
if the initializer returns normally having made the cell initialised (its
flag set), `get_or_create` raises the recursive-modification panic and does
not complete normally.  Second conjunct (only fault): the recursive-
modification panic arises only in exactly this situation — a cell that
started empty whose initializer returned normally with the flag set — so no
other condition makes `get_or_create` itself raise a fault. -/
theorem claim_C2_reentrancy {T σ : Type} (l : Lazy T) (w : σ)
    (f : σ → Lazy T → Ret σ T) :
    (∀ (w' : σ) (l' : Lazy T) (t : T), l.init = false → f w l = Ret.ok w' l' t →
        l'.init = true →
        Lazy.get_or_create w l f = GocResult.reentrantPanic w' l') ∧
      (∀ (w' : σ) (l' : Lazy T),
        Lazy.get_or_create w l f = GocResult.reentrantPanic w' l' →
        l.init = false ∧ l'.init = true ∧ ∃ t : T, f w l = Ret.ok w' l' t) := by
  constructor
  · intro w' l' t hempty hf hinit
    simp [Lazy.get_or_create, hempty, hf, hinit]
  · intro w' l' h
    unfold Lazy.get_or_create at h
    by_cases hi : l.init
    · simp only [hi, if_true] at h
      exact absurd h (by simp)
    · simp only [hi] at h
      refine ⟨by simpa using hi, ?_⟩
      cases hf : f w l with
      | panic w1 l1 => rw [hf] at h; exact absurd h (by simp)
      | ok w1 l1 t =>
        rw [hf] at h
        by_cases h1 : l1.init
        · simp only [h1, if_true] at h
          obtain ⟨rfl, rfl⟩ := GocResult.reentrantPanic.inj h
          exact ⟨h1, t, rfl⟩
        · simp only [h1] at h
          exact absurd h (by simp)

theorem claim_C2_witness :
    Lazy.get_or_create () (⟨none, false⟩ : Lazy Nat)
        (fun (w : Unit) (_ : Lazy Nat) => Ret.ok w ⟨some 0, true⟩ 0)
      = GocResult.reentrantPanic () ⟨some 0, true⟩ :=
  (claim_C2_reentrancy (⟨none, false⟩ : Lazy Nat) ()
      (fun w _ => Ret.ok w ⟨some 0, true⟩ 0)).1
    () ⟨some 0, true⟩ 0 rfl rfl rfl

/-- C10: state after the reentrancy fault.  On a cell that started empty,
when the initializer returns normally but has made the cell initialised (via
a completed inner `get_or_create`), the outer call panics carrying exactly
the state the initializer produced: the flag stays set and, were the fault
intercepted, `get` (peek) yields the inner initializer's committed slot
value.  The outer initializer's produced value `t` is discarded without ever
being stored: any other initializer producing any other value `t₂` but
leaving the cell in the same state yields the very same outcome. -/
theorem claim_C10_reentrant_state {T σ : Type} (l : Lazy T) (w : σ)
    (f : σ → Lazy T → Ret σ T) (w' : σ) (l' : Lazy T) (t : T)
    (hempty : l.init = false) (hf : f w l = Ret.ok w' l' t)
    (hinit : l'.init = true) :
    Lazy.get_or_create w l f = GocResult.reentrantPanic w' l' ∧
      Lazy.get l' = l'.t ∧
      ∀ (t₂ : T) (f₂ : σ → Lazy T → Ret σ T), f₂ w l = Ret.ok w' l' t₂ →
        Lazy.get_or_create w l f₂ = GocResult.reentrantPanic w' l' := by
  refine ⟨?_, by simp [Lazy.get, hinit], ?_⟩
  · simp [Lazy.get_or_create, hempty, hf, hinit]
  · intro t₂ f₂ hf₂
    simp [Lazy.get_or_create, hempty, hf₂, hinit]

theorem claim_C10_witness :
    Lazy.get_or_create () (⟨none, false⟩ : Lazy Nat)
        (fun (w : Unit) (_ : Lazy Nat) => Ret.ok w ⟨some 7, true⟩ 9)
      = GocResult.reentrantPanic () ⟨some 7, true⟩ ∧
      Lazy.get (⟨some 7, true⟩ : Lazy Nat) = some 7 :=
  have h := claim_C10_reentrant_state (⟨none, false⟩ : Lazy Nat) ()
    (fun w _ => Ret.ok w ⟨some 7, true⟩ 9) () ⟨some 7, true⟩ 9 rfl rfl rfl
  ⟨h.1, h.2.1⟩

/-- C4: atomicity on abnormal initializer exit.  On an empty cell, if the
initializer exits abnormally leaving the cell as it found it (it performed no
reentrant initialisation — the case the spec's P7 bars separately), the outer
call propagates the abnormal exit with the cell still in its original empty
state: the flag is not set and no write to the slot occurred, so `get` still
yields `none`, and a subsequent `get_or_create` whose initializer `g` returns
a value normally initialises the cell exactly as a first attempt would. -/
theorem claim_C4_abnormal_exit {T σ : Type} (l : Lazy T) (w w' : σ)
    (f : σ → Lazy T → Ret σ T)
    (hempty : l.init = false) (hpanic : f w l = Ret.panic w' l) :
    Lazy.get_or_create w l f = GocResult.initPanic w' l ∧
      Lazy.get l = none ∧
      ∀ (g : σ → Lazy T → Ret σ T) (w₂ w₃ : σ) (t : T),
        g w₂ l = Ret.ok w₃ l t →
        Lazy.get_or_create w₂ l g = GocResult.ok w₃ ⟨some t, true⟩ (some t) := by
  refine ⟨?_, by simp [Lazy.get, hempty], ?_⟩
  · simp [Lazy.get_or_create, hempty, hpanic]
  · intro g w₂ w₃ t hg
    simp [Lazy.get_or_create, hempty, hg]

theorem claim_C4_witness :
    Lazy.get_or_create () (⟨none, false⟩ : Lazy Nat)
        (fun (w : Unit) (l : Lazy Nat) => Ret.panic w l)
      = GocResult.initPanic () ⟨none, false⟩ ∧
      Lazy.get_or_create () (⟨none, false⟩ : Lazy Nat)
        (fun (w : Unit) (l : Lazy Nat) => Ret.ok w l 9)
      = GocResult.ok () ⟨some 9, true⟩ (some 9) :=
  have h := claim_C4_abnormal_exit (⟨none, false⟩ : Lazy Nat) () ()
    (fun w l => Ret.panic w l) rfl rfl
  ⟨h.1, h.2.2 (fun w l => Ret.ok w l 9) () () 9 rfl⟩

/-- C3: the claim that the contained value's destructor runs exactly once
when an initialised cell is dropped fails on this code.  `Lazy<T>` has no
`Drop` impl and stores the value in a `MaybeUninit<T>`, whose drop glue never
runs the destructor of its contents, so dropping an initialised cell runs the
destructor zero times (the value is leaked), not once. -/
theorem claim_C3_drop_leak :
    Lazy.dropGlueDestructorRuns (⟨some 42, true⟩ : Lazy Nat) = 0 ∧
      Lazy.dropGlueDestructorRuns (⟨some 42, true⟩ : Lazy Nat) ≠ 1 :=
  ⟨rfl, by decide⟩
